import Mathlib

/-!
# Verification of the TechStore transformation & reconciliation engine

Shallow embedding of the ETL transformation pipeline of the TechStore
repository.  Two iterations of the pipeline exist in the source:

* `src/scripts/transform.py` — the script whose outputs (`Fact_Sales.csv`,
  `Dim_*.csv`) are loaded by `create_database.py` and checked by
  `generate_project_audit_report.py`.  We embed its fact-table pipeline
  (marketing allocation, shipping, net profit) and its legacy-invoice merge.
* `src/scripts/transform_data.py` — the function-structured iteration whose
  dimension builders (`create_dim_product`, `create_dim_store`,
  `create_dim_customer`, `create_dim_date`), sentiment aggregator
  (`analyze_sentiment`), competitor-price matcher
  (`integrate_competitor_prices`) and id cleaner (`clean_id_column`) we embed.

Monetary amounts are represented as rationals.  Where the Python code can
produce non-finite floats (division by a zero group total, NaN from a failed
merge) we use the type `PVal` below, which mirrors IEEE float semantics for
the operations the pipeline actually performs (`*`, `/`, `-`, `min`,
`fillna`, `round`).  `pandas.Series.round` rounds half-to-even on binary
floats; we model rounding to 2 decimals with `round` on rationals
(half-up) — every theorem that depends on rounding only uses the bound
`|round2 x − x| ≤ 1/200`, which holds for either tie rule.
-/

namespace TechStore

/-- Rounding to 2 decimal places, as in `pandas round(2)` on a rational. -/
def round2 (x : ℚ) : ℚ := (round (100 * x) : ℤ) / 100

theorem abs_round2_sub_le (x : ℚ) : |round2 x - x| ≤ 1 / 200 := by
  have h : |(100 : ℚ) * x - round ((100 : ℚ) * x)| ≤ 1 / 2 := abs_sub_round _
  have h100 : |round2 x - x| = |(round ((100:ℚ) * x) : ℚ) - 100 * x| / 100 := by
    rw [round2]
    rw [show ((round ((100:ℚ) * x) : ℤ) : ℚ) / 100 - x
        = ((round ((100:ℚ) * x) : ℤ) - 100 * x) / 100 by ring]
    rw [abs_div]
    norm_num
  rw [h100, abs_sub_comm]
  linarith

theorem round2_intCast (k : ℤ) : round2 ((k : ℚ) / 100) = (k : ℚ) / 100 := by
  unfold round2
  rw [show (100 : ℚ) * ((k : ℚ) / 100) = (k : ℚ) by ring]
  rw [round_intCast]

/-- `round2` produces a rational with denominator dividing 100. -/
theorem round2_eq_intCast_div (x : ℚ) :
    ∃ k : ℤ, round2 x = (k : ℚ) / 100 := ⟨round (100 * x), rfl⟩

theorem round2_zero : round2 0 = 0 := by
  unfold round2; norm_num

/-- Rounding a dozen times a 2-decimal value changes nothing:
`round2 (12 * round2 x) = 12 * round2 x`. -/
theorem round2_twelve_mul_round2 (x : ℚ) :
    round2 (12 * round2 x) = 12 * round2 x := by
  obtain ⟨k, hk⟩ := round2_eq_intCast_div x
  rw [hk, show (12 : ℚ) * ((k : ℚ) / 100) = ((12 * k : ℤ) : ℚ) / 100 by
    push_cast; ring]
  exact round2_intCast _

/-!
## Pandas float values

`PVal` models the float values that can appear in a pandas numeric column:
an ordinary (rational) value, `+inf`, `-inf`, or `NaN` (which pandas also
uses as "null").  Only the operations used by the pipeline are defined, each
following IEEE-754 semantics.
-/

/-- A pandas float cell: NaN (= null), ±infinity, or a finite rational. -/
inductive PVal where
  | nan : PVal
  | pinf : PVal
  | ninf : PVal
  | val : ℚ → PVal
deriving DecidableEq, Repr

namespace PVal

/-- Lifting an optional rational into a float column (`None`/missing ↦ NaN). -/
def ofOpt : Option ℚ → PVal
  | none => nan
  | some q => val q

/-- IEEE multiplication restricted to the shapes the pipeline builds. -/
def pmul : PVal → PVal → PVal
  | nan, _ => nan
  | _, nan => nan
  | val a, val b => val (a * b)
  | pinf, val b => if 0 < b then pinf else if b < 0 then ninf else nan
  | ninf, val b => if 0 < b then ninf else if b < 0 then pinf else nan
  | val a, pinf => if 0 < a then pinf else if a < 0 then ninf else nan
  | val a, ninf => if 0 < a then ninf else if a < 0 then pinf else nan
  | pinf, pinf => pinf
  | pinf, ninf => ninf
  | ninf, pinf => ninf
  | ninf, ninf => pinf

/-- IEEE division (pandas: `x/0 = ±inf` for `x ≠ 0`, `0/0 = NaN`). -/
def pdiv : PVal → PVal → PVal
  | nan, _ => nan
  | _, nan => nan
  | val a, val b =>
      if b = 0 then (if a = 0 then nan else if 0 < a then pinf else ninf)
      else val (a / b)
  | val _, pinf => val 0
  | val _, ninf => val 0
  | pinf, val b => if b < 0 then ninf else pinf
  | ninf, val b => if b < 0 then pinf else ninf
  | pinf, _ => nan
  | ninf, _ => nan

/-- IEEE subtraction. -/
def psub : PVal → PVal → PVal
  | nan, _ => nan
  | _, nan => nan
  | val a, val b => val (a - b)
  | val _, pinf => ninf
  | val _, ninf => pinf
  | pinf, val _ => pinf
  | ninf, val _ => ninf
  | pinf, pinf => nan
  | pinf, ninf => pinf
  | ninf, pinf => ninf
  | ninf, ninf => nan

/-- IEEE strict comparison (`NaN` compares false against everything). -/
def plt : PVal → PVal → Bool
  | nan, _ => false
  | _, nan => false
  | val a, val b => a < b
  | val _, pinf => true
  | val _, ninf => false
  | pinf, val _ => false
  | ninf, val _ => true
  | pinf, pinf => false
  | pinf, ninf => false
  | ninf, pinf => true
  | ninf, ninf => false

/-- Python's binary `min`: `min(a, b)` is `b` if `b < a` else `a`. -/
def pymin (a b : PVal) : PVal := if plt b a then b else a

/-- `Series.fillna(0)`. -/
def fillna0 : PVal → PVal
  | nan => val 0
  | x => x

/-- `Series.round(2)` (±inf and NaN pass through). -/
def pround2 : PVal → PVal
  | val q => val (round2 q)
  | x => x

theorem ofOpt_none : ofOpt none = nan := rfl

theorem ofOpt_some (q : ℚ) : ofOpt (some q) = val q := rfl

theorem pmul_nan_left (x : PVal) : pmul nan x = nan := by
  cases x <;> rfl

theorem pmul_nan_right (x : PVal) : pmul x nan = nan := by
  cases x <;> rfl

theorem pmul_val_val (a b : ℚ) : pmul (val a) (val b) = val (a * b) := rfl

theorem pdiv_val_nan (a : ℚ) : pdiv (val a) nan = nan := rfl

theorem pdiv_val_val_of_ne (a b : ℚ) (h : b ≠ 0) :
    pdiv (val a) (val b) = val (a / b) := by
  show (if b = 0 then (if a = 0 then nan else if 0 < a then pinf else ninf)
    else val (a / b)) = val (a / b)
  rw [if_neg h]

theorem pdiv_zero_zero : pdiv (val 0) (val 0) = nan := rfl

theorem fillna0_nan : fillna0 nan = val 0 := rfl

theorem fillna0_val (q : ℚ) : fillna0 (val q) = val q := rfl

theorem psub_val_val (a b : ℚ) : psub (val a) (val b) = val (a - b) := rfl

theorem psub_nan_right (x : PVal) : psub x nan = nan := by
  cases x <;> rfl

theorem pdiv_nan_left (x : PVal) : pdiv nan x = nan := by
  cases x <;> rfl

theorem pdiv_nan_right (x : PVal) : pdiv x nan = nan := by
  cases x <;> rfl

theorem pround2_nan : pround2 nan = nan := rfl

theorem pround2_val (q : ℚ) : pround2 (val q) = val (round2 q) := rfl

theorem pymin_val_val (a b : ℚ) : pymin (val a) (val b) = val (min a b) := by
  unfold pymin plt
  by_cases h : b < a
  · simp only [h, decide_True, if_true, min_def]
    rw [if_neg (not_le.mpr h)]
  · simp only [h, decide_False, Bool.false_eq_true, if_false, min_def]
    rw [if_pos (le_of_not_lt h)]

end PVal

/-!
## `clean_id_column`  (`transform_data.py`, lines 24–37)

Strips every non-digit character from the string form of an id and parses
the remainder; a string with no digits becomes NaN under `pd.to_numeric`
and is then filled with 0.
-/

/-- Decimal value of a digit string, as `pd.to_numeric` parses it. -/
def digitsToNat (l : List Char) : ℕ :=
  l.foldl (fun n c => 10 * n + (c.toNat - ('0').toNat)) 0

/-- `clean_id_column` on one raw id string: strip every non-digit character
(`str.replace(r"[^\d]", "")`), then `pd.to_numeric` — an empty remainder is
NaN and `fillna(0)` turns it into 0. -/
def cleanId (s : String) : ℤ :=
  match s.toList.filter Char.isDigit with
  | [] => 0
  | ds => (digitsToNat ds : ℤ)

/-- `clean_id_column` applied to a cell that is already an integer
(`astype(str)` first renders it in decimal). -/
def cleanIdInt (n : ℤ) : ℤ := cleanId (toString n)

/-- `clean_id_column` applied to a nullable cell: `astype(str)` renders a
missing value as the digit-free string `"nan"`, which cleans to 0. -/
def cleanIdOptInt : Option ℤ → ℤ
  | none => cleanId ("nan")
  | some n => cleanIdInt n

/-- `str.lower()`: `Char.toLower` on every character.  (Extensionally equal
to `String.toLower`; stated over the character list so that proofs can
evaluate it.) -/
def pyLower (s : String) : String := String.mk (s.toList.map Char.toLower)

/-- Drop leading and trailing whitespace from a character list. -/
def trimChars (l : List Char) : List Char :=
  ((l.dropWhile Char.isWhitespace).reverse.dropWhile Char.isWhitespace).reverse

/-- `str.strip()`. -/
def pyStrip (s : String) : String := String.mk (trimChars s.toList)

theorem cleanId_eq_of_filter_eq (s t : String)
    (h : s.toList.filter Char.isDigit = t.toList.filter Char.isDigit) :
    cleanId s = cleanId t := by
  unfold cleanId
  rw [h]

theorem cleanId_of_no_digit (s : String)
    (h : ∀ c ∈ s.toList, ¬ c.isDigit) :
    cleanId s = 0 := by
  unfold cleanId
  have : s.toList.filter Char.isDigit = [] := by
    apply List.filter_eq_nil_iff.mpr
    intro c hc
    simpa using h c hc
  rw [this]

/-!
## Relational helpers

`optMatches` models one step of a pandas left merge: for a given left row,
the list of right rows it pairs with — all matching rows, or a single
`none` (NaN columns) when nothing matches.  Chaining these with `List.bind`
reproduces the row multiplication of successive `DataFrame.merge` calls.
`dropDupBy` is `DataFrame.drop_duplicates(subset=[k], keep="first")`.
-/

/-- The right-hand rows paired with one left row in a left merge. -/
def optMatches {β : Type} (l : List β) (p : β → Bool) : List (Option β) :=
  match l.filter p with
  | [] => [none]
  | xs => xs.map some

theorem mem_of_mem_optMatches {β : Type} {l : List β} {p : β → Bool}
    {b : β} (h : some b ∈ optMatches l p) : b ∈ l := by
  unfold optMatches at h
  rcases hf : l.filter p with _ | ⟨x, xs⟩
  · rw [hf] at h
    simp at h
  · rw [hf] at h
    rcases List.mem_map.mp h with ⟨c, hc, hcb⟩
    have : c ∈ l.filter p := by rw [hf]; exact hc
    cases hcb
    exact List.mem_of_mem_filter this

/-- The traversal behind `drop_duplicates(keep="first")`: walk the rows,
keeping a row only when its key has not been seen yet. -/
def dropDupByAux {α κ : Type} [DecidableEq κ] (key : α → κ) (seen : List κ) :
    List α → List α
  | [] => []
  | a :: l =>
      if key a ∈ seen then dropDupByAux key seen l
      else a :: dropDupByAux key (key a :: seen) l

/-- `drop_duplicates(subset=[key], keep="first")`. -/
def dropDupBy {α κ : Type} [DecidableEq κ] (key : α → κ) (l : List α) :
    List α :=
  dropDupByAux key [] l

theorem dropDupByAux_sublist {α κ : Type} [DecidableEq κ] (key : α → κ) :
    ∀ (l : List α) (seen : List κ), (dropDupByAux key seen l).Sublist l := by
  intro l
  induction l with
  | nil => intro seen; exact List.Sublist.refl _
  | cons a l ih =>
      intro seen
      unfold dropDupByAux
      by_cases h : key a ∈ seen
      · rw [if_pos h]
        exact (ih seen).trans (List.sublist_cons_self a l)
      · rw [if_neg h]
        exact List.Sublist.cons₂ a (ih (key a :: seen))

theorem dropDupBy_sublist {α κ : Type} [DecidableEq κ] (key : α → κ)
    (l : List α) : (dropDupBy key l).Sublist l :=
  dropDupByAux_sublist key l []

theorem dropDupByAux_nodup {α κ : Type} [DecidableEq κ] (key : α → κ) :
    ∀ (l : List α) (seen : List κ),
      ((dropDupByAux key seen l).map key).Nodup ∧
      ∀ x ∈ (dropDupByAux key seen l).map key, x ∉ seen := by
  intro l
  induction l with
  | nil =>
      intro seen
      exact ⟨List.nodup_nil, by intro x hx; cases hx⟩
  | cons a l ih =>
      intro seen
      unfold dropDupByAux
      by_cases h : key a ∈ seen
      · rw [if_pos h]
        exact ih seen
      · rw [if_neg h]
        rcases ih (key a :: seen) with ⟨hnd, hnotin⟩
        rw [List.map_cons]
        constructor
        · rw [List.nodup_cons]
          refine ⟨?_, hnd⟩
          intro hmem
          exact hnotin _ hmem (List.mem_cons_self _ _)
        · intro x hx
          rcases List.mem_cons.mp hx with rfl | hx
          · exact h
          · intro hxs
            exact hnotin x hx (List.mem_cons_of_mem _ hxs)

theorem dropDupBy_nodup {α κ : Type} [DecidableEq κ] (key : α → κ)
    (l : List α) : ((dropDupBy key l).map key).Nodup :=
  (dropDupByAux_nodup key l []).1

theorem dropDupByAux_find {α κ : Type} [DecidableEq κ] (key : α → κ) (k : κ) :
    ∀ (l : List α) (seen : List κ), k ∉ seen →
      (dropDupByAux key seen l).find? (fun b => decide (key b = k)) =
        l.find? (fun b => decide (key b = k)) := by
  intro l
  induction l with
  | nil => intro seen _; rfl
  | cons a l ih =>
      intro seen hk
      unfold dropDupByAux
      by_cases h : key a ∈ seen
      · rw [if_pos h]
        have hne : key a ≠ k := by
          intro heq
          exact hk (heq ▸ h)
        rw [List.find?_cons_of_neg _ (by simpa using hne)]
        exact ih seen hk
      · rw [if_neg h]
        by_cases hak : key a = k
        · rw [List.find?_cons_of_pos _ (by simpa using hak),
              List.find?_cons_of_pos _ (by simpa using hak)]
        · rw [List.find?_cons_of_neg _ (by simpa using hak),
              List.find?_cons_of_neg _ (by simpa using hak)]
          apply ih
          intro hmem
          rcases List.mem_cons.mp hmem with heq | hmem'
          · exact hak heq.symm
          · exact hk hmem'

/-- `keep="first"`: the row retained for a key is the first input row with
that key. -/
theorem dropDupBy_find {α κ : Type} [DecidableEq κ] (key : α → κ) (k : κ)
    (l : List α) :
    (dropDupBy key l).find? (fun b => decide (key b = k)) =
      l.find? (fun b => decide (key b = k)) :=
  dropDupByAux_find key k l [] (by intro h; cases h)

/-!
## Cleaned source tables (`transform.py`, section 2)

The rows below are the cleaned extracts as they stand right before the
fact-table construction of `transform.py` (section 6): column names have
been standardised, dates parsed (`errors="coerce"`: failures are `None`),
quantities filled with 1, revenues with 0.  A month is a `(year, month)`
pair, the value of `Series.dt.to_period("M")`; a `None` date yields a
`None` month.
-/

/-- A calendar month, `(year, month)`, as produced by `to_period("M")`. -/
abbrev Month := ℤ × ℤ

/-- A cleaned `sales.csv` row (after section-2 cleaning and the legacy
merge). -/
structure Sale where
  trans_id : ℤ
  date : Option Month
  store_id : ℤ
  product_id : String
  customer_id : String
  quantity : ℤ
  revenue : ℚ
deriving DecidableEq, Repr

/-- A cleaned `products.csv` row. -/
structure ProductRow where
  product_id : String
  product_name : Option String
  subcat_id : Option ℤ
  unit_price : Option ℚ
  unit_cost : Option ℚ
deriving DecidableEq, Repr

/-- A cleaned `stores.csv` row. -/
structure StoreRow where
  store_id : ℤ
  store_name : String
  city_id : Option ℤ
deriving DecidableEq, Repr

/-- A cleaned `cities.csv` row. -/
structure CityRow where
  city_id : Option ℤ
  city_name : Option String
  region : Option String
deriving DecidableEq, Repr

/-- A cleaned `subcategories.csv` row. -/
structure SubcatRow where
  subcat_id : Option ℤ
  subcat_name : Option String
  category_id : Option ℤ
deriving DecidableEq, Repr

/-- A cleaned `categories.csv` row. -/
structure CategoryRow where
  category_id : Option ℤ
  category_name : Option String
deriving DecidableEq, Repr

/-- A cleaned `shipping_rates.xlsx` row. -/
structure ShippingRow where
  region_name : String
  shipping_cost : ℚ
deriving DecidableEq, Repr

/-- A cleaned `marketing_expenses.xlsx` row (`month` comes from the parsed
date; `cost_usd` is `marketing_cost_usd` after `fillna(0)`). -/
structure MarketingRow where
  category : String
  month : Option Month
  cost_usd : ℚ
deriving DecidableEq, Repr

/-- All inputs of the `transform.py` fact-table construction. -/
structure Tables where
  sales : List Sale
  products : List ProductRow
  stores : List StoreRow
  cities : List CityRow
  subcategories : List SubcatRow
  categories : List CategoryRow
  shipping : List ShippingRow
  marketing : List MarketingRow

/-!
## Legacy invoice merge (`transform.py`, lines 188–199)

OCR-recovered 2022 invoices are cleaned like sales rows and appended to
the sales table with constant `store_id = 1`, constant
`product_id = "P100"` and synthetic `trans_id`s `100001, 100002, …`.
-/

/-- A row of `legacy_sales_2022.csv` as recovered by the OCR stage: every
field is as-extracted and possibly missing or approximate. -/
structure LegacyRow where
  date : Option Month
  customer_id : String
  quantity : Option ℤ
  revenue : Option ℚ
  product_name : Option String
  unit_price : Option ℚ
deriving DecidableEq, Repr

/-- Lines 188–199 of `transform.py`: clean the legacy rows
(`quantity.fillna(1)`, `total_revenue.fillna(0)`), overwrite
`trans_id`/`store_id`/`product_id`, select the sales columns and append. -/
def mergeLegacy (sales : List Sale) (legacy : List LegacyRow) : List Sale :=
  sales ++ legacy.enum.map (fun il =>
    { trans_id := 100001 + il.1
      date := il.2.date
      store_id := 1
      product_id := "P100"
      customer_id := il.2.customer_id
      quantity := il.2.quantity.getD 1
      revenue := il.2.revenue.getD 0 })

/-!
## Fact-table construction (`transform.py`, section 6)

`fact_sales` starts from the cleaned sales and is left-merged with
products (`unit_cost`, `subcat_id`), stores (`city_id`), cities
(`region`), the per-region mean shipping rate, subcategories
(`category_id`) and categories (`category_name`).  `Enriched` is one row
of the resulting frame; the merge chain is the `List.bind` of
`optMatches` steps, which reproduces both the NaN columns of unmatched
rows and the row multiplication of duplicate join keys.
-/

/-- One row of `fact_sales` after all merges of section 6. -/
structure Enriched where
  s : Sale
  prod : Option ProductRow
  store : Option StoreRow
  city : Option CityRow
  subcat : Option SubcatRow
  cat : Option CategoryRow
deriving DecidableEq, Repr

/-- The merge chain of section 6 (lines 384, 397–409, 426–434). -/
def enrich (T : Tables) : List Enriched :=
  T.sales.flatMap fun s =>
    (optMatches T.products (fun p => decide (p.product_id = s.product_id))).flatMap fun p? =>
      (optMatches T.stores (fun st => decide (st.store_id = s.store_id))).flatMap fun st? =>
        (optMatches T.cities
            (fun ci => decide (ci.city_id = st?.bind StoreRow.city_id))).flatMap fun ci? =>
          (optMatches T.subcategories
              (fun sc => decide (sc.subcat_id = p?.bind ProductRow.subcat_id))).flatMap fun sc? =>
            (optMatches T.categories
                (fun c => decide (c.category_id = sc?.bind SubcatRow.category_id))).map fun c? =>
              ⟨s, p?, st?, ci?, sc?, c?⟩

/-- Line 391: `unit_cost.fillna(0)` (missing product or missing cost ↦ 0). -/
def unitCost (e : Enriched) : ℚ := ((e.prod.bind ProductRow.unit_cost).getD 0)

/-- Line 393: `cost = quantity * unit_cost`. -/
def cost (e : Enriched) : ℚ := (e.s.quantity : ℚ) * unitCost e

/-- Line 394: `gross_profit = total_revenue - cost`. -/
def grossProfit (e : Enriched) : ℚ := e.s.revenue - cost e

/-- The region merged in from the customer's store's city. -/
def regionOf (e : Enriched) : Option String := e.city.bind CityRow.region

/-- Line 407: `shipping.groupby("region_name")["shipping_cost"].mean()`,
looked up for one region (`none` = the region has no rate rows). -/
def shipAvgFor (shipping : List ShippingRow) (rg : String) : Option ℚ :=
  match shipping.filter (fun r => decide (r.region_name = rg)) with
  | [] => none
  | g => some ((g.map ShippingRow.shipping_cost).sum / g.length)

/-- Lines 409–412: merge the mean rate on region, then `fillna(0)`. -/
def shipCost (T : Tables) (e : Enriched) : ℚ :=
  ((regionOf e).bind (shipAvgFor T.shipping)).getD 0

/-- Line 423: `month = date.dt.to_period("M")`. -/
def monthOf (e : Enriched) : Option Month := e.s.date

/-- The merged `category_name` column. -/
def catName (e : Enriched) : Option String := e.cat.bind CategoryRow.category_name

/-- The `(category_name, month)` group key of a fact row; `none` when either
component is NaN (pandas `groupby` drops such rows and the later merges on
these keys then find no match). -/
def bucketKey (e : Enriched) : Option (String × Month) :=
  match catName e, monthOf e with
  | some c, some m => some (c, m)
  | _, _ => none

/-- Line 440: total `total_revenue` of one `(category_name, month)` group of
the merged fact frame. -/
def bucketRevenue (T : Tables) (k : String × Month) : ℚ :=
  (((enrich T).filter (fun e => decide (bucketKey e = some k))).map
    (fun e => e.s.revenue)).sum

/-- Line 437: `marketing.groupby(["category", "month"]).sum()` of the
DZD-converted marketing cost (`marketing_cost_usd * 135.0`, line 421),
looked up for one key (`none` = no marketing rows for the key). -/
def mktMonthly (T : Tables) (k : String × Month) : Option ℚ :=
  match T.marketing.filter
      (fun m => decide (m.category = k.1 ∧ m.month = some k.2)) with
  | [] => none
  | g => some ((g.map (fun m => m.cost_usd * 135)).sum)

/-- Lines 462–464: the raw proportional allocation
`(total_revenue / total_revenue_cat_total) * marketing_cost_dzd`,
with IEEE semantics for the missing-key and zero-total cases. -/
def allocRaw (T : Tables) (e : Enriched) : PVal :=
  PVal.pmul
    (PVal.pdiv (PVal.val e.s.revenue)
      (PVal.ofOpt ((bucketKey e).map (bucketRevenue T))))
    (PVal.ofOpt ((bucketKey e).bind (mktMonthly T)))

/-- Lines 465–472: `.fillna(0)` then the safety cap
`min(allocated_marketing_dzd, total_revenue * 0.30)`. -/
def allocMarketing (T : Tables) (e : Enriched) : PVal :=
  PVal.pymin (PVal.fillna0 (allocRaw T e)) (PVal.val (e.s.revenue * (30 / 100)))

/-- Lines 484–488:
`net_profit = (gross_profit - shipping_cost_total - allocated_marketing_dzd).round(2)`. -/
def netProfit (T : Tables) (e : Enriched) : PVal :=
  PVal.pround2
    (PVal.psub (PVal.psub (PVal.val (grossProfit e)) (PVal.val (shipCost T e)))
      (allocMarketing T e))

/-- One row of the final `Fact_Sales.csv` (column selection of line 503). -/
structure FactRow where
  trans_id : ℤ
  date : Option Month
  store_id : ℤ
  product_id : String
  customer_id : String
  quantity : ℤ
  total_revenue : ℚ
  cost : ℚ
  gross_profit : ℚ
  shipping_cost_total : ℚ
  allocated_marketing_dzd : PVal
  net_profit : PVal
deriving DecidableEq, Repr

/-- The finished fact table of `transform.py`. -/
def factSales (T : Tables) : List FactRow :=
  (enrich T).map fun e =>
    { trans_id := e.s.trans_id
      date := e.s.date
      store_id := e.s.store_id
      product_id := e.s.product_id
      customer_id := e.s.customer_id
      quantity := e.s.quantity
      total_revenue := e.s.revenue
      cost := cost e
      gross_profit := grossProfit e
      shipping_cost_total := shipCost T e
      allocated_marketing_dzd := allocMarketing T e
      net_profit := netProfit T e }

/-!
## Structural lemmas about the fact pipeline
-/

theorem mem_sales_of_mem_enrich {T : Tables} {e : Enriched}
    (h : e ∈ enrich T) : e.s ∈ T.sales := by
  unfold enrich at h
  rcases List.mem_flatMap.mp h with ⟨s, hs, h⟩
  rcases List.mem_flatMap.mp h with ⟨p?, _, h⟩
  rcases List.mem_flatMap.mp h with ⟨st?, _, h⟩
  rcases List.mem_flatMap.mp h with ⟨ci?, _, h⟩
  rcases List.mem_flatMap.mp h with ⟨sc?, _, h⟩
  rcases List.mem_map.mp h with ⟨c?, _, rfl⟩
  exact hs

/-- A fact row belongs to its own `(category, month)` bucket, so its revenue
is one of the summands of the bucket total. -/
theorem revenue_le_bucketRevenue {T : Tables} {e : Enriched}
    {k : String × Month}
    (hrev : ∀ s ∈ T.sales, 0 ≤ s.revenue)
    (he : e ∈ enrich T) (hk : bucketKey e = some k) :
    e.s.revenue ≤ bucketRevenue T k := by
  unfold bucketRevenue
  apply List.single_le_sum
  · intro q hq
    rcases List.mem_map.mp hq with ⟨f, hf, rfl⟩
    exact hrev f.s (mem_sales_of_mem_enrich (List.mem_of_mem_filter hf))
  · exact List.mem_map.mpr ⟨e, List.mem_filter.mpr ⟨he, by simp [hk]⟩, rfl⟩

theorem bucketRevenue_nonneg {T : Tables} (k : String × Month)
    (hrev : ∀ s ∈ T.sales, 0 ≤ s.revenue) :
    0 ≤ bucketRevenue T k := by
  unfold bucketRevenue
  apply List.sum_nonneg
  intro q hq
  rcases List.mem_map.mp hq with ⟨f, hf, rfl⟩
  exact hrev f.s (mem_sales_of_mem_enrich (List.mem_of_mem_filter hf))

/-- Core shape of the capped allocation: under nonnegative revenues the
filled proportional allocation is a finite rational `pq` and the stored
value is exactly `min pq (revenue * 30%)`; moreover `pq = 0` whenever the
row's bucket has zero total revenue. -/
theorem alloc_eq_val_min {T : Tables} {e : Enriched}
    (hrev : ∀ s ∈ T.sales, 0 ≤ s.revenue) (he : e ∈ enrich T) :
    ∃ pq : ℚ,
      PVal.fillna0 (allocRaw T e) = PVal.val pq ∧
      allocMarketing T e = PVal.val (min pq (e.s.revenue * (30 / 100))) ∧
      (∀ k, bucketKey e = some k → bucketRevenue T k = 0 → pq = 0) := by
  have hkey : ∃ pq : ℚ, PVal.fillna0 (allocRaw T e) = PVal.val pq ∧
      (∀ k, bucketKey e = some k → bucketRevenue T k = 0 → pq = 0) := by
    rcases hbk : bucketKey e with _ | k
    · refine ⟨0, ?_, ?_⟩
      · unfold allocRaw
        rw [hbk]
        rfl
      · intro k hk
        simp at hk
    · have hmap : PVal.ofOpt (Option.map (bucketRevenue T) (some k)) =
          PVal.val (bucketRevenue T k) := rfl
      have hbind : (some k).bind (mktMonthly T) = mktMonthly T k := rfl
      by_cases hB : bucketRevenue T k = 0
      · have h0 : e.s.revenue = 0 := by
          have h1 := revenue_le_bucketRevenue hrev he hbk
          have h2 := hrev e.s (mem_sales_of_mem_enrich he)
          rw [hB] at h1
          linarith
        refine ⟨0, ?_, fun _ _ _ => rfl⟩
        unfold allocRaw
        rw [hbk, h0, hmap, hB, PVal.pdiv_zero_zero, PVal.pmul_nan_left,
          PVal.fillna0_nan]
      · cases hmkt : mktMonthly T k with
        | none =>
            refine ⟨0, ?_, ?_⟩
            · unfold allocRaw
              rw [hbk, hmap, hbind, hmkt, PVal.ofOpt_none,
                PVal.pdiv_val_val_of_ne _ _ hB, PVal.pmul_nan_right,
                PVal.fillna0_nan]
            · intro k' hk' hB'
              injection hk' with h
              subst h
              exact absurd hB' hB
        | some m =>
            refine ⟨e.s.revenue / bucketRevenue T k * m, ?_, ?_⟩
            · unfold allocRaw
              rw [hbk, hmap, hbind, hmkt, PVal.ofOpt_some,
                PVal.pdiv_val_val_of_ne _ _ hB, PVal.pmul_val_val,
                PVal.fillna0_val]
            · intro k' hk' hB'
              injection hk' with h
              subst h
              exact absurd hB' hB
  rcases hkey with ⟨pq, hfill, hzero⟩
  refine ⟨pq, hfill, ?_, hzero⟩
  unfold allocMarketing
  rw [hfill, PVal.pymin_val_val]

/-!
## Claims C1, C2, C8 — the allocation & profitability engine
-/

/-- C1: for every transaction row of the produced fact table (the `enrich` /
`factSales` pipeline of `transform.py`, with the §3 data-model premise that
revenues are nonnegative), the stored marketing cost equals
`min(proportional allocation, revenue * 0.30)` for the NaN-filled
proportional allocation `pq`, and is therefore at most 30% of the
transaction's own revenue. -/
theorem C1_allocated_marketing_capped (T : Tables)
    (hrev : ∀ s ∈ T.sales, 0 ≤ s.revenue) :
    ∀ r ∈ factSales T, ∃ pq : ℚ,
      r.allocated_marketing_dzd =
        PVal.val (min pq (r.total_revenue * (30 / 100))) ∧
      min pq (r.total_revenue * (30 / 100)) ≤ r.total_revenue * (30 / 100) := by
  intro r hr
  rcases List.mem_map.mp hr with ⟨e, he, rfl⟩
  rcases alloc_eq_val_min hrev he with ⟨pq, _, halloc, _⟩
  exact ⟨pq, halloc, min_le_right _ _⟩

/-- Witness for C1 on a concrete one-transaction input. -/
theorem C1_witness :
    (∀ s ∈ (Tables.mk [⟨1, some (2024, 1), 1, "P1", "C1", 2, 1000⟩]
      [⟨"P1", some ("Widget"), some 10, some 500, some 100⟩]
      [⟨1, "S1", some 5⟩] [⟨some 5, some ("Oran"), some ("west")⟩]
      [⟨some 10, some ("Phones"), some 20⟩] [⟨some 20, some ("electronics")⟩]
      [⟨"west", 50⟩] [⟨"electronics", some (2024, 1), 10⟩]).sales,
        0 ≤ s.revenue) ∧
    ∀ r ∈ factSales (Tables.mk [⟨1, some (2024, 1), 1, "P1", "C1", 2, 1000⟩]
      [⟨"P1", some ("Widget"), some 10, some 500, some 100⟩]
      [⟨1, "S1", some 5⟩] [⟨some 5, some ("Oran"), some ("west")⟩]
      [⟨some 10, some ("Phones"), some 20⟩] [⟨some 20, some ("electronics")⟩]
      [⟨"west", 50⟩] [⟨"electronics", some (2024, 1), 10⟩]),
      ∃ pq : ℚ,
        r.allocated_marketing_dzd =
          PVal.val (min pq (r.total_revenue * (30 / 100))) ∧
        min pq (r.total_revenue * (30 / 100)) ≤
          r.total_revenue * (30 / 100) :=
  ⟨by decide, C1_allocated_marketing_capped _ (by decide)⟩

/-- C2: every fact row's `net_profit` is the value of
`revenue − cost − shipping − marketing` rounded to 2 decimals, hence within
0.01 of that exact difference (over the `transform.py` pipeline, with
nonnegative revenues so that the allocation is finite). -/
theorem C2_net_profit_formula (T : Tables)
    (hrev : ∀ s ∈ T.sales, 0 ≤ s.revenue) :
    ∀ r ∈ factSales T, ∃ a n : ℚ,
      r.allocated_marketing_dzd = PVal.val a ∧
      r.net_profit = PVal.val n ∧
      n = round2 (r.total_revenue - r.cost - r.shipping_cost_total - a) ∧
      |n - (r.total_revenue - r.cost - r.shipping_cost_total - a)| ≤
        1 / 100 := by
  intro r hr
  rcases List.mem_map.mp hr with ⟨e, he, rfl⟩
  rcases alloc_eq_val_min hrev he with ⟨pq, _, halloc, _⟩
  refine ⟨min pq (e.s.revenue * (30 / 100)),
    round2 (grossProfit e - shipCost T e - min pq (e.s.revenue * (30 / 100))),
    halloc, ?_, ?_, ?_⟩
  · show netProfit T e = _
    unfold netProfit
    rw [halloc, PVal.psub_val_val, PVal.psub_val_val, PVal.pround2_val]
  · show round2 (grossProfit e - shipCost T e - _) = _
    unfold grossProfit
    ring_nf
  · show |round2 (grossProfit e - shipCost T e - _) - _| ≤ _
    unfold grossProfit
    have h := abs_round2_sub_le
      (e.s.revenue - cost e - shipCost T e - min pq (e.s.revenue * (30 / 100)))
    calc |round2 (e.s.revenue - cost e - shipCost T e -
            min pq (e.s.revenue * (30 / 100))) -
          (e.s.revenue - cost e - shipCost T e -
            min pq (e.s.revenue * (30 / 100)))| ≤ 1 / 200 := h
      _ ≤ 1 / 100 := by norm_num

/-- Witness for C2 on a concrete one-transaction input. -/
theorem C2_witness :
    (∀ s ∈ (Tables.mk [⟨1, some (2024, 1), 1, "P1", "C1", 2, 1000⟩]
      [⟨"P1", some ("Widget"), some 10, some 500, some 100⟩]
      [⟨1, "S1", some 5⟩] [⟨some 5, some ("Oran"), some ("west")⟩]
      [⟨some 10, some ("Phones"), some 20⟩] [⟨some 20, some ("electronics")⟩]
      [⟨"west", 50⟩] [⟨"electronics", some (2024, 1), 10⟩]).sales,
        0 ≤ s.revenue) ∧
    ∀ r ∈ factSales (Tables.mk [⟨1, some (2024, 1), 1, "P1", "C1", 2, 1000⟩]
      [⟨"P1", some ("Widget"), some 10, some 500, some 100⟩]
      [⟨1, "S1", some 5⟩] [⟨some 5, some ("Oran"), some ("west")⟩]
      [⟨some 10, some ("Phones"), some 20⟩] [⟨some 20, some ("electronics")⟩]
      [⟨"west", 50⟩] [⟨"electronics", some (2024, 1), 10⟩]),
      ∃ a n : ℚ,
        r.allocated_marketing_dzd = PVal.val a ∧
        r.net_profit = PVal.val n ∧
        n = round2 (r.total_revenue - r.cost - r.shipping_cost_total - a) ∧
        |n - (r.total_revenue - r.cost - r.shipping_cost_total - a)| ≤
          1 / 100 :=
  ⟨by decide, C2_net_profit_formula _ (by decide)⟩

/-- C8: if every transaction's revenue is nonnegative, every fact row gets a
finite (never infinite/NaN) allocated marketing value, and a row whose
`(category, month)` bucket has zero total revenue gets exactly 0. -/
theorem C8_zero_revenue_bucket (T : Tables)
    (hrev : ∀ s ∈ T.sales, 0 ≤ s.revenue) :
    ∀ e ∈ enrich T,
      (∃ q : ℚ, allocMarketing T e = PVal.val q) ∧
      (∀ k, bucketKey e = some k → bucketRevenue T k = 0 →
        allocMarketing T e = PVal.val 0) := by
  intro e he
  rcases alloc_eq_val_min hrev he with ⟨pq, _, halloc, hzero⟩
  refine ⟨⟨min pq (e.s.revenue * (30 / 100)), halloc⟩, ?_⟩
  intro k hk hB
  rw [halloc, hzero k hk hB]
  have h1 : 0 ≤ e.s.revenue * (30 / 100) := by
    have := hrev e.s (mem_sales_of_mem_enrich he)
    positivity
  rw [min_eq_left h1]

/-- Witness for C8: a bucket whose only transaction has zero revenue. -/
theorem C8_witness :
    (∀ s ∈ (Tables.mk [⟨1, some (2024, 1), 1, "P1", "C1", 2, 0⟩]
      [⟨"P1", some ("Widget"), some 10, some 500, some 100⟩]
      [⟨1, "S1", some 5⟩] [⟨some 5, some ("Oran"), some ("west")⟩]
      [⟨some 10, some ("Phones"), some 20⟩] [⟨some 20, some ("electronics")⟩]
      [⟨"west", 50⟩] [⟨"electronics", some (2024, 1), 10⟩]).sales,
        0 ≤ s.revenue) ∧
    ∀ e ∈ enrich (Tables.mk [⟨1, some (2024, 1), 1, "P1", "C1", 2, 0⟩]
      [⟨"P1", some ("Widget"), some 10, some 500, some 100⟩]
      [⟨1, "S1", some 5⟩] [⟨some 5, some ("Oran"), some ("west")⟩]
      [⟨some 10, some ("Phones"), some 20⟩] [⟨some 20, some ("electronics")⟩]
      [⟨"west", 50⟩] [⟨"electronics", some (2024, 1), 10⟩]),
      (∃ q : ℚ, allocMarketing (Tables.mk
        [⟨1, some (2024, 1), 1, "P1", "C1", 2, 0⟩]
        [⟨"P1", some ("Widget"), some 10, some 500, some 100⟩]
        [⟨1, "S1", some 5⟩] [⟨some 5, some ("Oran"), some ("west")⟩]
        [⟨some 10, some ("Phones"), some 20⟩]
        [⟨some 20, some ("electronics")⟩]
        [⟨"west", 50⟩] [⟨"electronics", some (2024, 1), 10⟩]) e = PVal.val q) ∧
      (∀ k, bucketKey e = some k →
        bucketRevenue (Tables.mk [⟨1, some (2024, 1), 1, "P1", "C1", 2, 0⟩]
          [⟨"P1", some ("Widget"), some 10, some 500, some 100⟩]
          [⟨1, "S1", some 5⟩] [⟨some 5, some ("Oran"), some ("west")⟩]
          [⟨some 10, some ("Phones"), some 20⟩]
          [⟨some 20, some ("electronics")⟩]
          [⟨"west", 50⟩] [⟨"electronics", some (2024, 1), 10⟩]) k = 0 →
        allocMarketing (Tables.mk [⟨1, some (2024, 1), 1, "P1", "C1", 2, 0⟩]
          [⟨"P1", some ("Widget"), some 10, some 500, some 100⟩]
          [⟨1, "S1", some 5⟩] [⟨some 5, some ("Oran"), some ("west")⟩]
          [⟨some 10, some ("Phones"), some 20⟩]
          [⟨some 20, some ("electronics")⟩]
          [⟨"west", 50⟩] [⟨"electronics", some (2024, 1), 10⟩]) e =
          PVal.val 0) :=
  ⟨by decide, C8_zero_revenue_bucket _ (by decide)⟩

/-!
## Claim C9 — the legacy invoice merge
-/

/-- C9: the `i`-th legacy (OCR-recovered) transaction is merged as the
`(sales.length + i)`-th fact-stream row with constant `store_id = 1`,
constant `product_id = "P100"` and synthetic `trans_id = 100001 + i`,
regardless of the recovered field values. -/
theorem C9_legacy_merge_constants (sales : List Sale)
    (legacy : List LegacyRow) (i : ℕ) (h : i < legacy.length) :
    ∃ l : LegacyRow, legacy[i]? = some l ∧
      (mergeLegacy sales legacy)[sales.length + i]? =
        some { trans_id := 100001 + (i : ℤ)
               date := l.date
               store_id := 1
               product_id := "P100"
               customer_id := l.customer_id
               quantity := l.quantity.getD 1
               revenue := l.revenue.getD 0 } := by
  rcases List.getElem?_eq_some_iff.mpr ⟨h, rfl⟩ with hl
  refine ⟨legacy[i], hl, ?_⟩
  unfold mergeLegacy
  rw [List.getElem?_append_right (Nat.le_add_right _ _), Nat.add_sub_cancel_left]
  rw [List.getElem?_map]
  rw [show legacy.enum[i]? = some (i, legacy[i]) from ?_]
  · rfl
  · rw [List.getElem?_enum]
    rw [List.getElem?_eq_getElem h]
    rfl

/-- Witness for C9 on a concrete two-row legacy extract. -/
theorem C9_witness :
    ∃ l : LegacyRow,
      [⟨some (2022, 3), "C0050", some 2, some 450, some ("TV"), some 200⟩,
        (⟨none, "C0123", none, none, none, none⟩ : LegacyRow)][1]? = some l ∧
      (mergeLegacy [⟨1, some (2024, 1), 7, "P9", "C9", 1, 10⟩]
        [⟨some (2022, 3), "C0050", some 2, some 450, some ("TV"), some 200⟩,
          ⟨none, "C0123", none, none, none, none⟩])[1 + 1]? =
        some { trans_id := 100001 + (1 : ℤ)
               date := l.date
               store_id := 1
               product_id := "P100"
               customer_id := l.customer_id
               quantity := l.quantity.getD 1
               revenue := l.revenue.getD 0 } :=
  C9_legacy_merge_constants [⟨1, some (2024, 1), 7, "P9", "C9", 1, 10⟩]
    [⟨some (2022, 3), "C0050", some 2, some 450, some ("TV"), some 200⟩,
      ⟨none, "C0123", none, none, none, none⟩] 1 (by decide)

/-!
## Claim C10 — the id-cleaning function
-/

/-- C10: `clean_id_column` depends only on the digit subsequence of the raw
id (all non-digits stripped), maps digit-free strings to 0, and therefore
collapses distinct raw ids with the same digit sequence (`"P5"` and
`"Store_5"` both become 5) and distinct digit-free ids (both become 0). -/
theorem C10_clean_id_collapse :
    (∀ s t : String,
      s.toList.filter Char.isDigit = t.toList.filter Char.isDigit →
        cleanId s = cleanId t) ∧
    (∀ s : String, (∀ c ∈ s.toList, ¬ c.isDigit) → cleanId s = 0) ∧
    cleanId ("P5") = 5 ∧ cleanId ("Store_5") = 5 ∧
    ("P5" : String) ≠ "Store_5" ∧
    cleanId ("ABC") = 0 ∧ cleanId ("XY") = 0 ∧ ("ABC" : String) ≠ "XY" :=
  ⟨cleanId_eq_of_filter_eq, cleanId_of_no_digit,
    by decide, by decide, by decide, by decide, by decide, by decide⟩

/-- Witness for C10: the two hypothesis-bearing conjuncts applied to the
concrete ids `"Store_5"`, `"P5"` and `"ABC"`. -/
theorem C10_witness :
    (("Store_5" : String).toList.filter Char.isDigit =
        ("P5" : String).toList.filter Char.isDigit ∧
      cleanId ("Store_5") = cleanId ("P5")) ∧
    ((∀ c ∈ ("ABC" : String).toList, ¬ c.isDigit) ∧ cleanId ("ABC") = 0) :=
  ⟨⟨by decide, C10_clean_id_collapse.1 _ _ (by decide)⟩,
    ⟨by decide, C10_clean_id_collapse.2.1 _ (by decide)⟩⟩

/-!
## Sentiment aggregator (`transform_data.py`, `analyze_sentiment`)

The VADER compound scorer is an external lexicon; it enters the embedding
as a parameter `g : String → ℚ`.  The groupby key order (pandas sorts keys)
is immaterial to every property below; we keep first-occurrence order.
-/

/-- A `reviews.csv` row after `standardize_columns`. -/
structure ReviewRow where
  product_id : String
  review_text : Option String
  rating : Option ℚ
deriving DecidableEq, Repr

/-- Lines 118–124: normalise the text (`fillna('') … lower … strip`), then
score it — the empty string scores 0.0, anything else gets the rounded
compound score. -/
def sentimentScore (g : String → ℚ) (r : ReviewRow) : ℚ :=
  let x := pyStrip (pyLower (r.review_text.getD ("")))
  if x = "" then 0 else round2 (g x)

/-- One row of the aggregator's output. -/
structure SentimentRow where
  product_id : String
  avg_sentiment : ℚ
  avg_rating : Option ℚ
  review_count : ℕ
deriving DecidableEq, Repr

/-- The distinct product ids appearing in the reviews (the groupby keys). -/
def sentimentKeys (reviews : List ReviewRow) : List String :=
  dropDupBy (fun k => k) (reviews.map ReviewRow.product_id)

/-- Lines 126–133: `groupby("product_id")` with mean sentiment, mean rating
(NaN ratings skipped; all-NaN mean is NaN) and review count, the means
rounded to 2 decimals. -/
def analyzeSentiment (g : String → ℚ) (reviews : List ReviewRow) :
    List SentimentRow :=
  (sentimentKeys reviews).map fun k =>
    let grp := reviews.filter (fun r => decide (r.product_id = k))
    let ratings := grp.filterMap ReviewRow.rating
    { product_id := k
      avg_sentiment := round2 (((grp.map (sentimentScore g)).sum) / grp.length)
      avg_rating :=
        if ratings.length = 0 then none
        else some (round2 (ratings.sum / ratings.length))
      review_count := grp.length }

theorem mem_reviews_of_mem_sentimentKeys {reviews : List ReviewRow}
    {k : String} (h : k ∈ sentimentKeys reviews) :
    ∃ r ∈ reviews, r.product_id = k := by
  unfold sentimentKeys at h
  have := (dropDupBy_sublist (fun k => k) _).subset h
  rcases List.mem_map.mp this with ⟨r, hr, hrk⟩
  exact ⟨r, hr, hrk⟩

theorem mem_sentimentKeys_of_mem_output {g : String → ℚ}
    {reviews : List ReviewRow} {k : String}
    (h : k ∈ (analyzeSentiment g reviews).map SentimentRow.product_id) :
    k ∈ sentimentKeys reviews := by
  rcases List.mem_map.mp h with ⟨s, hs, rfl⟩
  unfold analyzeSentiment at hs
  rcases List.mem_map.mp hs with ⟨k', hk', rfl⟩
  exact hk'

/-!
## Competitor-price matcher
(`transform_data.py`, `integrate_competitor_prices`, lines 145–214)

The fuzzy scorer (`fuzzywuzzy.WRatio` plus its processor) is an external
library; it enters as a parameter `f : String → String → ℕ` producing a
0–100 score.  `extractOne` is the library's contract: the first
maximal-scoring choice.
-/

/-- A `competitor_prices.csv` row. -/
structure CompRow where
  name : String
  price : ℚ
deriving DecidableEq, Repr

/-- The accumulator step of `extractOne`: keep the incumbent unless the new
choice scores strictly higher. -/
def eoStep (f : String → String → ℕ) (q : String) (best : String × ℕ)
    (m : String) : String × ℕ :=
  if f q m > best.2 then (m, f q m) else best

/-- `process.extractOne(q, choices)`: the first choice attaining the maximal
score (Python's `max` keeps the earliest maximum), or `None` on an empty
choice list. -/
def extractOne (f : String → String → ℕ) (q : String) :
    List String → Option (String × ℕ)
  | [] => none
  | n :: ns => some (ns.foldl (eoStep f q) (n, f q n))

/-- The acceptance step of the `match` closure: keep the best match only
when its score exceeds 80, reading the price off the first competitor row
whose lowered name is the best choice. -/
def acceptMatch (comps : List CompRow) : Option (String × ℕ) → Option ℚ
  | none => none
  | some (best, score) =>
      if 80 < score then
        (comps.find? (fun c => decide (pyLower c.name = best))).map
          CompRow.price
      else none

/-- Lines 175–182: the `match` closure — fuzzy-match one product name
against the lowered competitor names, accept only a score above 80. -/
def fuzzyMatch (f : String → String → ℕ) (comps : List CompRow)
    (name? : Option String) : Option ℚ :=
  match name? with
  | none => none
  | some nm =>
      acceptMatch comps
        (extractOne f (pyLower nm) (comps.map (fun c => pyLower c.name)))

theorem fuzzyMatch_some (f : String → String → ℕ) (comps : List CompRow)
    (nm : String) :
    fuzzyMatch f comps (some nm) =
      acceptMatch comps
        (extractOne f (pyLower nm) (comps.map (fun c => pyLower c.name))) :=
  rfl

theorem acceptMatch_none (comps : List CompRow) :
    acceptMatch comps none = none := rfl

theorem acceptMatch_some (comps : List CompRow) (b : String) (s : ℕ) :
    acceptMatch comps (some (b, s)) =
      if 80 < s then
        (comps.find? (fun c => decide (pyLower c.name = b))).map CompRow.price
      else none := rfl

/-- Lines 149–214: the three columns added to the product frame.  A missing,
empty or column-deficient competitor file (`comp? = none`) and an empty row
list both degrade to all-NaN columns; otherwise
`competitor_price` is the matched price, `price_difference = unit_price −
competitor_price` and `price_difference_pct = (difference / competitor_price
* 100).round(2)`, NaN-propagating. -/
def competitorColumns (f : String → String → ℕ)
    (comp? : Option (List CompRow)) (name? : Option String)
    (unit_price : Option ℚ) : PVal × PVal × PVal :=
  match comp? with
  | none => (PVal.nan, PVal.nan, PVal.nan)
  | some comps =>
      if comps.isEmpty then (PVal.nan, PVal.nan, PVal.nan)
      else
        let cp := PVal.ofOpt (fuzzyMatch f comps name?)
        let diff := PVal.psub (PVal.ofOpt unit_price) cp
        let pct := PVal.pround2 (PVal.pmul (PVal.pdiv diff cp) (PVal.val 100))
        (cp, diff, pct)

/-- The fold inside `extractOne` returns a pair `(b, f q b)` whose score
bounds the initial score and every processed score. -/
theorem extractOne_fold_spec (f : String → String → ℕ) (q : String) :
    ∀ (ns : List String) (b0 : String),
      ((ns.foldl (eoStep f q) (b0, f q b0)).1 = b0 ∨
        (ns.foldl (eoStep f q) (b0, f q b0)).1 ∈ ns) ∧
      (ns.foldl (eoStep f q) (b0, f q b0)).2 =
        f q (ns.foldl (eoStep f q) (b0, f q b0)).1 ∧
      f q b0 ≤ (ns.foldl (eoStep f q) (b0, f q b0)).2 ∧
      ∀ y ∈ ns, f q y ≤ (ns.foldl (eoStep f q) (b0, f q b0)).2 := by
  intro ns
  induction ns with
  | nil =>
      intro b0
      exact ⟨Or.inl rfl, rfl, le_refl _, by intro y hy; cases hy⟩
  | cons m ns ih =>
      intro b0
      rw [List.foldl_cons]
      by_cases hm : f q m > f q b0
      · rw [show eoStep f q (b0, f q b0) m = (m, f q m) by
          unfold eoStep; rw [if_pos hm]]
        rcases ih m with ⟨h1, h2, h3, h4⟩
        refine ⟨?_, h2, le_trans (le_of_lt hm) h3, ?_⟩
        · rcases h1 with h | h
          · exact Or.inr (by rw [h]; exact List.mem_cons_self m ns)
          · exact Or.inr (List.mem_cons_of_mem _ h)
        · intro y hy
          rcases List.mem_cons.mp hy with rfl | hy
          · exact h3
          · exact h4 y hy
      · rw [show eoStep f q (b0, f q b0) m = (b0, f q b0) by
          unfold eoStep; rw [if_neg hm]]
        rcases ih b0 with ⟨h1, h2, h3, h4⟩
        refine ⟨?_, h2, h3, ?_⟩
        · rcases h1 with h | h
          · exact Or.inl h
          · exact Or.inr (List.mem_cons_of_mem _ h)
        · intro y hy
          rcases List.mem_cons.mp hy with rfl | hy
          · exact le_trans (le_of_not_lt hm) h3
          · exact h4 y hy

theorem competitorColumns_nil (f : String → String → ℕ)
    (name? : Option String) (up : Option ℚ) :
    competitorColumns f (some []) name? up = (PVal.nan, PVal.nan, PVal.nan) :=
  rfl

theorem competitorColumns_of_ne_nil (f : String → String → ℕ)
    (comps : List CompRow) (name? : Option String) (up : Option ℚ)
    (h : comps ≠ []) :
    competitorColumns f (some comps) name? up =
      (PVal.ofOpt (fuzzyMatch f comps name?),
       PVal.psub (PVal.ofOpt up) (PVal.ofOpt (fuzzyMatch f comps name?)),
       PVal.pround2 (PVal.pmul
         (PVal.pdiv
           (PVal.psub (PVal.ofOpt up) (PVal.ofOpt (fuzzyMatch f comps name?)))
           (PVal.ofOpt (fuzzyMatch f comps name?)))
         (PVal.val 100))) := by
  rcases comps with _ | ⟨c, cs⟩
  · exact absurd rfl h
  · rfl

theorem competitorColumns_of_no_match (f : String → String → ℕ)
    (comps : List CompRow) (name? : Option String) (up : Option ℚ)
    (h : comps ≠ []) (hnone : fuzzyMatch f comps name? = none) :
    competitorColumns f (some comps) name? up =
      (PVal.nan, PVal.nan, PVal.nan) := by
  rw [competitorColumns_of_ne_nil f comps name? up h, hnone, PVal.ofOpt_none,
    PVal.psub_nan_right, PVal.pdiv_nan_right, PVal.pmul_nan_left,
    PVal.pround2_nan]

/-- `extractOne` returns a member of the choices, with its own score, which
is maximal. -/
theorem extractOne_spec (f : String → String → ℕ) (q : String)
    (l : List String) (b : String) (s : ℕ)
    (h : extractOne f q l = some (b, s)) :
    b ∈ l ∧ s = f q b ∧ ∀ y ∈ l, f q y ≤ s := by
  cases l with
  | nil => cases h
  | cons n ns =>
      unfold extractOne at h
      injection h with h
      rcases extractOne_fold_spec f q ns n with ⟨h1, h2, h3, h4⟩
      rw [h] at h1 h2 h3 h4
      refine ⟨?_, h2, ?_⟩
      · rcases h1 with h' | h'
        · exact h' ▸ List.mem_cons_self n ns
        · exact List.mem_cons_of_mem _ h'
      · intro y hy
        rcases List.mem_cons.mp hy with rfl | hy
        · exact h3
        · exact h4 y hy

/-!
## Claim C3 — price reconciliation behaviour
-/

/-- C3: for the matcher of `integrate_competitor_prices` (scorer `f`
abstracted): (i) if every competitor scores at most 80 against a product
name, all three competitor columns stay null for it; (ii) a product with an
exact lower-cased-name match among the competitor names — for a scorer that
is 100 exactly on that match and bounded by 100 — takes the price of the
first matching competitor row; (iii) whenever a price is assigned at all,
it is the price of the first best-scoring competitor name and that score
exceeds 80. -/
theorem C3_price_reconciliation :
    (∀ (f : String → String → ℕ) (comps : List CompRow) (nm : String)
        (up : Option ℚ),
      (∀ y ∈ comps.map (fun c => pyLower c.name), f (pyLower nm) y ≤ 80) →
      competitorColumns f (some comps) (some nm) up =
        (PVal.nan, PVal.nan, PVal.nan)) ∧
    (∀ (f : String → String → ℕ) (comps : List CompRow) (nm : String)
        (up : Option ℚ),
      (∀ y ∈ comps.map (fun c => pyLower c.name), f (pyLower nm) y ≤ 100) →
      f (pyLower nm) (pyLower nm) = 100 →
      pyLower nm ∈ comps.map (fun c => pyLower c.name) →
      (∀ y ∈ comps.map (fun c => pyLower c.name),
        f (pyLower nm) y = 100 → y = pyLower nm) →
      ∃ c : CompRow,
        comps.find? (fun c => decide (pyLower c.name = pyLower nm)) = some c ∧
        (competitorColumns f (some comps) (some nm) up).1 = PVal.val c.price) ∧
    (∀ (f : String → String → ℕ) (comps : List CompRow) (nm : String)
        (up : Option ℚ) (pr : ℚ),
      (competitorColumns f (some comps) (some nm) up).1 = PVal.val pr →
      ∃ b s, extractOne f (pyLower nm) (comps.map (fun c => pyLower c.name)) =
          some (b, s) ∧
        80 < s ∧ s = f (pyLower nm) b ∧
        (∀ y ∈ comps.map (fun c => pyLower c.name), f (pyLower nm) y ≤ s) ∧
        ∃ c : CompRow,
          comps.find? (fun c => decide (pyLower c.name = b)) = some c ∧
          pr = c.price) := by
  refine ⟨?_, ?_, ?_⟩
  · -- (i) all scores ≤ 80 leave the three columns null
    intro f comps nm up hle
    rcases hc : comps with _ | ⟨c, cs⟩
    · exact competitorColumns_nil f (some nm) up
    · rw [← hc]
      have hne : comps ≠ [] := by rw [hc]; exact List.cons_ne_nil c cs
      apply competitorColumns_of_no_match f comps (some nm) up hne
      rw [fuzzyMatch_some]
      rcases hE : extractOne f (pyLower nm)
          (comps.map (fun c => pyLower c.name)) with _ | ⟨b, s⟩
      · rw [hE, acceptMatch_none]
      · rcases extractOne_spec f (pyLower nm) _ b s hE with ⟨hb, hs, _⟩
        rw [hE, acceptMatch_some,
          if_neg (by rw [hs]; exact not_lt.mpr (hle b hb))]
  · -- (ii) exact lowered-name match: the first matching row's price is taken
    intro f comps nm up hbound hrefl hmem huniq
    have hne : comps ≠ [] := by
      intro hnil
      rw [hnil] at hmem
      cases hmem
    rcases hc : comps.map (fun c => pyLower c.name) with _ | ⟨n0, ns⟩
    · rw [hc] at hmem
      cases hmem
    · have hE : ∃ b s, extractOne f (pyLower nm)
          (comps.map (fun c => pyLower c.name)) = some (b, s) := by
        rw [hc]
        exact ⟨_, _, rfl⟩
      rcases hE with ⟨b, s, hE⟩
      rcases extractOne_spec f (pyLower nm) _ b s hE with ⟨hb, hs, hmax⟩
      have h100 : s = 100 := by
        have h1 : (100 : ℕ) ≤ s := by
          have := hmax (pyLower nm) hmem
          rw [hrefl] at this
          exact this
        have h2 : s ≤ 100 := by
          rw [hs]
          exact hbound b hb
        omega
      have hbq : b = pyLower nm := huniq b hb (by rw [← hs, h100])
      have hfind : (comps.find?
          (fun c => decide (pyLower c.name = pyLower nm))).isSome := by
        rw [List.find?_isSome]
        rcases List.mem_map.mp hmem with ⟨c, hcm, hcn⟩
        exact ⟨c, hcm, by simpa using hcn⟩
      rcases Option.isSome_iff_exists.mp hfind with ⟨c, hc'⟩
      refine ⟨c, hc', ?_⟩
      rw [competitorColumns_of_ne_nil f comps (some nm) up hne]
      show PVal.ofOpt (fuzzyMatch f comps (some nm)) = _
      rw [fuzzyMatch_some, hE, acceptMatch_some,
        if_pos (by rw [h100]; norm_num), hbq, hc']
      rfl
  · -- (iii) any assigned price is the first maximal match above threshold
    intro f comps nm up pr hpr
    have hne : comps ≠ [] := by
      intro hnil
      rw [hnil, competitorColumns_nil] at hpr
      cases hpr
    rw [competitorColumns_of_ne_nil f comps (some nm) up hne] at hpr
    have hfm : fuzzyMatch f comps (some nm) = some pr := by
      rcases hv : fuzzyMatch f comps (some nm) with _ | v
      · rw [hv] at hpr
        cases hpr
      · rw [hv] at hpr
        injection hpr with h
        rw [h]
    rw [fuzzyMatch_some] at hfm
    rcases hE : extractOne f (pyLower nm)
        (comps.map (fun c => pyLower c.name)) with _ | ⟨b, s⟩
    · rw [hE, acceptMatch_none] at hfm
      cases hfm
    · rw [hE, acceptMatch_some] at hfm
      by_cases hth : 80 < s
      · rw [if_pos hth] at hfm
        rcases Option.map_eq_some'.mp hfm with ⟨c, hcf, hcp⟩
        rcases extractOne_spec f (pyLower nm) _ b s hE with ⟨_, hs, hmax⟩
        exact ⟨b, s, hE, hth, hs, hmax, c, hcf, hcp.symm⟩
      · rw [if_neg hth] at hfm
        cases hfm

/-- Witness for C3: the exact-match clause applied to a concrete catalog
with an equality-based scorer. -/
theorem C3_witness :
    (∀ y ∈ ([⟨"iPhone 14 Pro Max", 999⟩, ⟨"Galaxy S24", 700⟩] :
        List CompRow).map (fun c => pyLower c.name),
      (fun q y => if q = y then 100 else 50)
        (pyLower ("IPHONE 14 pro max")) y ≤ 100) ∧
    (∃ c : CompRow,
      ([⟨"iPhone 14 Pro Max", 999⟩, ⟨"Galaxy S24", 700⟩] :
          List CompRow).find?
        (fun c => decide (pyLower c.name = pyLower ("IPHONE 14 pro max"))) =
          some c ∧
      (competitorColumns (fun q y => if q = y then 100 else 50)
        (some [⟨"iPhone 14 Pro Max", 999⟩, ⟨"Galaxy S24", 700⟩])
        (some ("IPHONE 14 pro max")) (some 1200)).1 = PVal.val c.price) :=
  ⟨by decide,
    C3_price_reconciliation.2.1 (fun q y => if q = y then 100 else 50)
      [⟨"iPhone 14 Pro Max", 999⟩, ⟨"Galaxy S24", 700⟩]
      ("IPHONE 14 pro max") (some 1200)
      (by decide) (by decide) (by decide) (by decide)⟩

/-!
## Date dimension (`transform_data.py`, `create_dim_date`, lines 539–582)

A dense calendar from 2023-01-01 to 2024-12-31.  The textual columns
(`month_name`, `day_name`) and `week_of_year` are projected away — no claim
concerns them.  `date_id` is `strftime("%Y%m%d")` cast to `int`, i.e. the
`y*10000 + m*100 + d` encoding for 4-digit years.  `dayofweek` is computed
by the standard civil-calendar day count (days since 1970-01-01, which was
a Thursday), matching pandas' Monday=0 … Sunday=6 before the `+1` shift.
-/

/-- Gregorian leap-year rule. -/
def isLeap (y : ℕ) : Bool := (y % 4 == 0) && (!(y % 100 == 0) || (y % 400 == 0))

/-- Days in a month of the Gregorian calendar. -/
def daysInMonth (y m : ℕ) : ℕ :=
  if m = 2 then (if isLeap y then 29 else 28)
  else if m = 4 ∨ m = 6 ∨ m = 9 ∨ m = 11 then 30 else 31

/-- `pd.date_range("2023-01-01", "2024-12-31", freq="D")` as
`(year, month, day)` triples. -/
def dimDateTriples : List (ℕ × ℕ × ℕ) :=
  ([2023, 2024] : List ℕ).flatMap fun y =>
    (List.range' 1 12).flatMap fun m =>
      (List.range' 1 (daysInMonth y m)).map fun d => (y, m, d)

/-- Days since 1970-01-01 of a civil date (valid for the dense range used
here; standard era-based Gregorian day count). -/
def daysFromCivil (y m d : ℕ) : ℕ :=
  let y2 := if m ≤ 2 then y - 1 else y
  let era := y2 / 400
  let yoe := y2 - era * 400
  let doy := (153 * (if 2 < m then m - 3 else m + 9) + 2) / 5 + d - 1
  let doe := yoe * 365 + yoe / 4 - yoe / 100 + doy
  era * 146097 + doe - 719468

/-- Line 568: `dt.dayofweek + 1` — 1 = Monday … 7 = Sunday (1970-01-01 was
a Thursday, i.e. weekday 3 in the Monday=0 convention). -/
def dayOfWeekCol (y m d : ℕ) : ℕ := (daysFromCivil y m d + 3) % 7 + 1

/-- One `dim_date` row (textual columns projected away). -/
structure DimDateRow where
  date_id : ℕ
  year : ℕ
  quarter : ℕ
  month : ℕ
  day : ℕ
  day_of_week : ℕ
deriving DecidableEq, Repr

/-- `create_dim_date`: the dense calendar with its derived columns. -/
def createDimDate : List DimDateRow :=
  dimDateTriples.map fun t =>
    { date_id := t.1 * 10000 + t.2.1 * 100 + t.2.2
      year := t.1
      quarter := (t.2.1 - 1) / 3 + 1
      month := t.2.1
      day := t.2.2
      day_of_week := dayOfWeekCol t.1 t.2.1 t.2.2 }

/-- Boolean strict-increase check on a list of naturals. -/
def strictChain : List ℕ → Bool
  | [] => true
  | [_] => true
  | a :: b :: l => decide (a < b) && strictChain (b :: l)

theorem strictChain_head_lt :
    ∀ {a : ℕ} {l : List ℕ}, strictChain (a :: l) = true → ∀ x ∈ l, a < x := by
  intro a l
  induction l generalizing a with
  | nil => intro _ x hx; cases hx
  | cons b l ih =>
      intro h x hx
      have hab : a < b := by
        have := (Bool.and_eq_true _ _).mp h
        exact of_decide_eq_true this.1
      have hbl : strictChain (b :: l) = true :=
        ((Bool.and_eq_true _ _).mp h).2
      rcases List.mem_cons.mp hx with rfl | hx
      · exact hab
      · exact lt_trans hab (ih hbl x hx)

theorem nodup_of_strictChain :
    ∀ {l : List ℕ}, strictChain l = true → l.Nodup := by
  intro l
  induction l with
  | nil => intro _; exact List.nodup_nil
  | cons a l ih =>
      intro h
      have htail : strictChain l = true := by
        cases l with
        | nil => rfl
        | cons b l' => exact ((Bool.and_eq_true _ _).mp h).2
      refine List.nodup_cons.mpr ⟨?_, ih htail⟩
      intro hmem
      exact absurd rfl (ne_of_gt (strictChain_head_lt h a hmem))

set_option maxRecDepth 8000 in
/-- The 731 `date_id`s of the dense 2023–2024 calendar are strictly
increasing, hence pairwise distinct. -/
theorem dimDate_ids_nodup : (createDimDate.map DimDateRow.date_id).Nodup :=
  nodup_of_strictChain (by decide)

theorem mem_dimDateTriples {y m d : ℕ}
    (hy1 : 2023 ≤ y) (hy2 : y ≤ 2024) (hm1 : 1 ≤ m) (hm2 : m ≤ 12)
    (hd1 : 1 ≤ d) (hd2 : d ≤ daysInMonth y m) :
    (y, m, d) ∈ dimDateTriples := by
  unfold dimDateTriples
  apply List.mem_flatMap.mpr
  refine ⟨y, ?_, ?_⟩
  · have : y = 2023 ∨ y = 2024 := by omega
    rcases this with rfl | rfl
    · exact List.mem_cons_self _ _
    · exact List.mem_cons_of_mem _ (List.mem_cons_self _ _)
  · apply List.mem_flatMap.mpr
    refine ⟨m, List.mem_range'_1.mpr ⟨hm1, by omega⟩, ?_⟩
    exact List.mem_map.mpr ⟨d, List.mem_range'_1.mpr ⟨hd1, by omega⟩, rfl⟩

set_option maxRecDepth 8000 in
/-- C6: every `dim_date` row's `date_id` is the 8-digit
`year*10000 + month*100 + day` encoding; the `date_id`s are unique; the
calendar is dense (every day of every month of 2023–2024 appears, so there
are no gaps); `day_of_week` always lies in 1..7; and the convention is
1 = Monday (2023-01-02) … 7 = Sunday (2024-01-07). -/
theorem C6_dim_date :
    (∀ row ∈ createDimDate,
      row.date_id = row.year * 10000 + row.month * 100 + row.day ∧
      1 ≤ row.day_of_week ∧ row.day_of_week ≤ 7) ∧
    (createDimDate.map DimDateRow.date_id).Nodup ∧
    (∀ y m d : ℕ, 2023 ≤ y → y ≤ 2024 → 1 ≤ m → m ≤ 12 → 1 ≤ d →
      d ≤ daysInMonth y m →
      ∃ row ∈ createDimDate, row.date_id = y * 10000 + m * 100 + d ∧
        row.year = y ∧ row.month = m ∧ row.day = d) ∧
    (∃ row ∈ createDimDate, row.date_id = 20230102 ∧ row.day_of_week = 1) ∧
    (∃ row ∈ createDimDate, row.date_id = 20240107 ∧ row.day_of_week = 7) := by
  refine ⟨?_, ?_, ?_, ?_, ?_⟩
  · intro row hrow
    rcases List.mem_map.mp hrow with ⟨t, _, rfl⟩
    refine ⟨rfl, ?_, ?_⟩
    · exact Nat.succ_le_succ (Nat.zero_le _)
    · have : (daysFromCivil t.1 t.2.1 t.2.2 + 3) % 7 < 7 :=
        Nat.mod_lt _ (by norm_num)
      show (daysFromCivil t.1 t.2.1 t.2.2 + 3) % 7 + 1 ≤ 7
      omega
  · exact dimDate_ids_nodup
  · intro y m d hy1 hy2 hm1 hm2 hd1 hd2
    exact ⟨_, List.mem_map.mpr
      ⟨(y, m, d), mem_dimDateTriples hy1 hy2 hm1 hm2 hd1 hd2, rfl⟩,
      rfl, rfl, rfl, rfl⟩
  · exact ⟨_, List.mem_map.mpr
      ⟨(2023, 1, 2), mem_dimDateTriples (by norm_num) (by norm_num)
        (by norm_num) (by norm_num) (by norm_num) (by decide), rfl⟩,
      by decide, by decide⟩
  · exact ⟨_, List.mem_map.mpr
      ⟨(2024, 1, 7), mem_dimDateTriples (by norm_num) (by norm_num)
        (by norm_num) (by norm_num) (by norm_num) (by decide), rfl⟩,
      by decide, by decide⟩

/-!
## Product dimension (`transform_data.py`, `create_dim_product`,
lines 220–336)

The extracts are taken as already-loaded typed tables (an absent optional
file corresponds to `comp? = none` for the competitor list; the claims
under verification all concern runs where the product/subcategory/category
extracts load).
-/

/-- A `products.csv` row (after `standardize_columns` and the
`subcat_id → subcategory_id` rename). -/
structure TDProduct where
  product_id : String
  product_name : Option String
  subcategory_id : Option ℤ
  unit_price : Option ℚ
  unit_cost : Option ℚ
deriving DecidableEq, Repr

/-- A `subcategories.csv` row. -/
structure TDSubcat where
  subcategory_id : Option ℤ
  subcategory_name : Option String
  category_id : Option ℤ
deriving DecidableEq, Repr

/-- A `categories.csv` row. -/
structure TDCategory where
  category_id : Option ℤ
  category_name : Option String
deriving DecidableEq, Repr

/-- One row of the product frame after the subcategory and category left
merges (lines 276–289). -/
structure MergedProduct where
  p : TDProduct
  sub : Option TDSubcat
  cat : Option TDCategory
deriving DecidableEq, Repr

/-- The two left merges of `create_dim_product`. -/
def productMerge (products : List TDProduct) (subcats : List TDSubcat)
    (cats : List TDCategory) : List MergedProduct :=
  products.flatMap fun p =>
    (optMatches subcats
        (fun sc => decide (sc.subcategory_id = p.subcategory_id))).flatMap
      fun sub? =>
        (optMatches cats
            (fun c => decide (c.category_id =
              sub?.bind TDSubcat.category_id))).map
          fun cat? => ⟨p, sub?, cat?⟩

/-- One finished `dim_product` row (column selection of lines 312–326). -/
structure DimProductRow where
  product_id : ℤ
  product_name : Option String
  subcategory_id : ℤ
  subcategory_name : String
  category_id : ℤ
  category_name : String
  unit_price : Option ℚ
  unit_cost : Option ℚ
  competitor_price : PVal
  price_difference : PVal
  price_difference_pct : PVal
  avg_sentiment : ℚ
  avg_rating : ℚ
  review_count : ℕ
deriving DecidableEq, Repr

/-- Lines 292–309: sentiment join with 0/0/0 defaults, competitor columns,
numeric coercions, id cleaning and `"Unknown"` fills, for one merged row. -/
def dimProductRow (f : String → String → ℕ) (comp? : Option (List CompRow))
    (sentiment : List SentimentRow) (r : MergedProduct) : DimProductRow :=
  let sent? := sentiment.find? (fun s => decide (s.product_id = r.p.product_id))
  let cols := competitorColumns f comp? r.p.product_name r.p.unit_price
  { product_id := cleanId r.p.product_id
    product_name := r.p.product_name
    subcategory_id := cleanIdOptInt r.p.subcategory_id
    subcategory_name := (r.sub.bind TDSubcat.subcategory_name).getD ("Unknown")
    category_id := cleanIdOptInt (r.sub.bind TDSubcat.category_id)
    category_name := (r.cat.bind TDCategory.category_name).getD ("Unknown")
    unit_price := r.p.unit_price.map round2
    unit_cost := r.p.unit_cost.map round2
    competitor_price := cols.1
    price_difference := cols.2.1
    price_difference_pct := cols.2.2
    avg_sentiment := round2 ((sent?.map SentimentRow.avg_sentiment).getD 0)
    avg_rating := round2 ((sent?.bind SentimentRow.avg_rating).getD 0)
    review_count := (sent?.map SentimentRow.review_count).getD 0 }

/-- `create_dim_product`: merges, per-row derivation, and the final
`drop_duplicates(subset=["product_id"], keep="first")` (line 329). -/
def createDimProduct (f : String → String → ℕ) (sentiment : List SentimentRow)
    (products : List TDProduct) (subcats : List TDSubcat)
    (cats : List TDCategory) (comp? : Option (List CompRow)) :
    List DimProductRow :=
  dropDupBy (fun r => r.product_id)
    ((productMerge products subcats cats).map (dimProductRow f comp? sentiment))

/-!
## Store dimension (`transform_data.py`, `create_dim_store`, lines 341–429)
-/

/-- A `stores.csv` row. -/
structure TDStore where
  store_id : ℤ
  store_name : String
  city_id : ℤ
deriving DecidableEq, Repr

/-- A `cities.csv` row (after the `region_name → region` rename). -/
structure TDCityRow where
  city_id : ℤ
  city_name : Option String
  region : Option String
deriving DecidableEq, Repr

/-- A cleaned `monthly_targets.xlsx` row: `store_id` is already
`clean`-parsed to a nullable integer (`clean_dataframes`, lines 78–79),
`target_revenue` coerced with `fillna(0)`. -/
structure TargetRow where
  store_id : Option ℤ
  target_revenue : ℚ
  manager_name : Option String
deriving DecidableEq, Repr

/-- The target rows of one store (`groupby("store_id")`; NA keys are
dropped by pandas). -/
def targetsFor (targets : List TargetRow) (k : ℤ) : List TargetRow :=
  targets.filter (fun t => decide (t.store_id = some k))

/-- Lines 381–384: the `"mean"` aggregation of `target_revenue` — the mean
of the store's monthly target records, `none` when the store has none. -/
def monthlyTargetFor (targets : List TargetRow) (k : ℤ) : Option ℚ :=
  match targetsFor targets k with
  | [] => none
  | g => some ((g.map TargetRow.target_revenue).sum / g.length)

/-- The `"first"` aggregation of `manager_name` (first non-null value). -/
def managerFor (targets : List TargetRow) (k : ℤ) : Option String :=
  ((targetsFor targets k).filterMap TargetRow.manager_name).head?

/-- One finished `dim_store` row. -/
structure DimStoreRow where
  store_id : ℤ
  store_name : String
  city_id : ℤ
  city_name : String
  region : String
  monthly_target : ℚ
  annual_target : ℚ
  manager_name : String
deriving DecidableEq, Repr

/-- Lines 389–406: target merge, fills, `monthly_target.fillna(0).round(2)`,
`annual_target = (monthly_target * 12).round(2)`, id cleaning, for one
store row paired with its (possibly missing) city match. -/
def dimStoreRow (targets : List TargetRow)
    (stci : TDStore × Option TDCityRow) : DimStoreRow :=
  let mt := round2 ((monthlyTargetFor targets stci.1.store_id).getD 0)
  { store_id := cleanIdInt stci.1.store_id
    store_name := stci.1.store_name
    city_id := cleanIdInt stci.1.city_id
    city_name := (stci.2.bind TDCityRow.city_name).getD ("Unknown")
    region := (stci.2.bind TDCityRow.region).getD ("Unknown")
    monthly_target := mt
    annual_target := round2 (mt * 12)
    manager_name := (managerFor targets stci.1.store_id).getD ("Unknown") }

/-- `create_dim_store`: city merge, target aggregation, and the final
`drop_duplicates(subset=["store_id"], keep="first")` (line 421). -/
def createDimStore (stores : List TDStore) (cities : List TDCityRow)
    (targets : List TargetRow) : List DimStoreRow :=
  dropDupBy (fun r => r.store_id)
    ((stores.flatMap fun st =>
      (optMatches cities (fun ci => decide (ci.city_id = st.city_id))).map
        fun ci? => (st, ci?)).map (dimStoreRow targets))

/-!
## Customer dimension (`transform_data.py`, `create_dim_customer`,
lines 433–537)
-/

/-- A `customers.csv` row with raw string ids. -/
structure TDCustomer where
  customer_id : String
  full_name : String
  city_id : String
deriving DecidableEq, Repr

/-- A `cities.csv` row with a raw string id (the customer builder cleans
city ids on both sides before merging). -/
structure TDCityC where
  city_id : String
  city_name : Option String
  region : Option String
deriving DecidableEq, Repr

/-- A customer row after id cleaning and name stripping (lines 465–470). -/
structure CustCleaned where
  customer_id : ℤ
  full_name : String
  city_id : ℤ
deriving DecidableEq, Repr

/-- A city row after id cleaning (line 467). -/
structure CityCleaned where
  city_id : ℤ
  city_name : Option String
  region : Option String
deriving DecidableEq, Repr

/-- One finished `dim_customer` row. -/
structure DimCustomerRow where
  customer_id : ℤ
  full_name : String
  city_id : ℤ
  city_name : String
  region : String
deriving DecidableEq, Repr

/-- `create_dim_customer`: clean ids and names, deduplicate by
`customer_id` (keep first), deduplicate by `(full_name, city_id)` (keep
first), then left-merge the cities and fill the unknowns.  The merge comes
after both deduplications. -/
def createDimCustomer (customers : List TDCustomer) (cities : List TDCityC) :
    List DimCustomerRow :=
  let cust1 : List CustCleaned := customers.map fun c =>
    ⟨cleanId c.customer_id, pyStrip c.full_name, cleanId c.city_id⟩
  let cities1 : List CityCleaned := cities.map fun c =>
    ⟨cleanId c.city_id, c.city_name, c.region⟩
  let cust2 := dropDupBy (fun c => c.customer_id) cust1
  let cust3 := dropDupBy (fun c => (c.full_name, c.city_id)) cust2
  cust3.flatMap fun c =>
    (optMatches cities1 (fun ci => decide (ci.city_id = c.city_id))).map
      fun ci? =>
        { customer_id := c.customer_id
          full_name := c.full_name
          city_id := c.city_id
          city_name := (ci?.bind CityCleaned.city_name).getD ("Unknown")
          region := (ci?.bind CityCleaned.region).getD ("Unknown") }

theorem mem_products_of_mem_productMerge {products : List TDProduct}
    {subcats : List TDSubcat} {cats : List TDCategory} {r : MergedProduct}
    (h : r ∈ productMerge products subcats cats) : r.p ∈ products := by
  unfold productMerge at h
  rcases List.mem_flatMap.mp h with ⟨p, hp, h⟩
  rcases List.mem_flatMap.mp h with ⟨sub?, _, h⟩
  rcases List.mem_map.mp h with ⟨cat?, _, rfl⟩
  exact hp

/-!
## Claim C4 — dimension key uniqueness
-/

/-- C4 counterexample: a single customer joined against a cities table in
which `city_id = 1` occurs twice comes out of `create_dim_customer` as two
rows with the same `customer_id`, so the Customer dimension's primary key
is not duplicate-free. -/
theorem C4_counterexample :
    ¬ (((createDimCustomer
        [⟨"C10", "Ali Bensalem", "1"⟩]
        [⟨"1", some ("Oran"), some ("west")⟩,
          ⟨"1", some ("Algiers"), some ("north")⟩]).map
      DimCustomerRow.customer_id).Nodup) := by
  have hids : (createDimCustomer
      [⟨"C10", "Ali Bensalem", "1"⟩]
      [⟨"1", some ("Oran"), some ("west")⟩,
        ⟨"1", some ("Algiers"), some ("north")⟩]).map
      DimCustomerRow.customer_id = [10, 10] := by decide
  rw [hids]
  intro h
  exact (List.nodup_cons.mp h).1 (List.mem_singleton.mpr rfl)

/-- C4 (amended): the Product and Store dimensions end with
`drop_duplicates(subset=[key], keep="first")`, so their primary keys are
duplicate-free and the retained row for each key is the first-seen one; the
dense Date dimension's `date_id` is unique.  (The Customer dimension
deduplicates by id and by (name, city) only before its city join, which can
reintroduce duplicates — see the counterexample.) -/
theorem C4_amended_key_uniqueness :
    (∀ (f : String → String → ℕ) (sentiment : List SentimentRow)
        (products : List TDProduct) (subcats : List TDSubcat)
        (cats : List TDCategory) (comp? : Option (List CompRow)),
      ((createDimProduct f sentiment products subcats cats comp?).map
        DimProductRow.product_id).Nodup ∧
      ∀ k : ℤ,
        (createDimProduct f sentiment products subcats cats comp?).find?
          (fun r => decide (r.product_id = k)) =
        ((productMerge products subcats cats).map
          (dimProductRow f comp? sentiment)).find?
          (fun r => decide (r.product_id = k))) ∧
    (∀ (stores : List TDStore) (cities : List TDCityRow)
        (targets : List TargetRow),
      ((createDimStore stores cities targets).map
        DimStoreRow.store_id).Nodup ∧
      ∀ k : ℤ,
        (createDimStore stores cities targets).find?
          (fun r => decide (r.store_id = k)) =
        ((stores.flatMap fun st =>
          (optMatches cities (fun ci => decide (ci.city_id = st.city_id))).map
            fun ci? => (st, ci?)).map (dimStoreRow targets)).find?
          (fun r => decide (r.store_id = k))) ∧
    (createDimDate.map DimDateRow.date_id).Nodup := by
  refine ⟨?_, ?_, dimDate_ids_nodup⟩
  · intro f sentiment products subcats cats comp?
    exact ⟨dropDupBy_nodup _ _, fun k => dropDupBy_find _ k _⟩
  · intro stores cities targets
    exact ⟨dropDupBy_nodup _ _, fun k => dropDupBy_find _ k _⟩

/-- Witness for C4 (amended): concrete duplicated product and store inputs
come out with unique keys, keeping the first-seen rows. -/
theorem C4_amended_witness :
    (((createDimProduct (fun _ _ => 0) []
        [⟨"P7", some ("A"), some 1, some 10, some 4⟩,
          ⟨"P7", some ("B"), some 1, some 12, some 5⟩]
        [] [] none).map DimProductRow.product_id).Nodup) ∧
    (((createDimStore [⟨3, "S.A", 1⟩, ⟨3, "S.B", 1⟩] [] []).map
      DimStoreRow.store_id).Nodup) :=
  ⟨(C4_amended_key_uniqueness.1 (fun _ _ => 0) []
      [⟨"P7", some ("A"), some 1, some 10, some 4⟩,
        ⟨"P7", some ("B"), some 1, some 12, some 5⟩] [] [] none).1,
    (C4_amended_key_uniqueness.2.1 [⟨3, "S.A", 1⟩, ⟨3, "S.B", 1⟩] [] []).1⟩

/-!
## Claim C5 — store targets
-/

/-- C5: in every built Store-dimension row, `annual_target` equals
`monthly_target * 12` exactly; and the per-store aggregation is the mean of
the store's target records — a store whose records all carry value `v` gets
monthly target `v`, not `n * v`. -/
theorem C5_annual_target (stores : List TDStore) (cities : List TDCityRow)
    (targets : List TargetRow) :
    (∀ row ∈ createDimStore stores cities targets,
      row.annual_target = row.monthly_target * 12) ∧
    (∀ (k : ℤ) (v : ℚ), targetsFor targets k ≠ [] →
      (∀ t ∈ targetsFor targets k, t.target_revenue = v) →
      monthlyTargetFor targets k = some v) := by
  constructor
  · intro row hrow
    rcases List.mem_map.mp ((dropDupBy_sublist _ _).subset hrow) with ⟨x, _, rfl⟩
    show round2 (round2 ((monthlyTargetFor targets x.1.store_id).getD 0) * 12) =
      round2 ((monthlyTargetFor targets x.1.store_id).getD 0) * 12
    rw [mul_comm, round2_twelve_mul_round2, mul_comm]
  · intro k v hne hall
    rcases hg : targetsFor targets k with _ | ⟨t, ts⟩
    · exact absurd hg hne
    · unfold monthlyTargetFor
      rw [hg]
      show some (((t :: ts).map TargetRow.target_revenue).sum /
        ((t :: ts).length : ℚ)) = some v
      have hrep : (t :: ts).map TargetRow.target_revenue =
          List.replicate (t :: ts).length v := by
        apply List.eq_replicate_iff.mpr
        refine ⟨by rw [List.length_map], ?_⟩
        intro b hb
        rcases List.mem_map.mp hb with ⟨u, hu, rfl⟩
        exact hall u (by rw [hg]; exact hu)
      have hlen : (((t :: ts).length : ℚ)) ≠ 0 := by
        rw [List.length_cons]
        push_cast
        positivity
      rw [hrep, List.sum_replicate, nsmul_eq_mul,
        mul_comm (((t :: ts).length : ℚ)) v, mul_div_assoc,
        div_self hlen, mul_one]

/-- Witness for C5 on a concrete store with two equal target records. -/
theorem C5_witness :
    (∀ row ∈ createDimStore [⟨1, "Alpha", 5⟩]
        [⟨5, some ("Oran"), some ("west")⟩]
        [⟨some 1, 150, some ("Amel")⟩, ⟨some 1, 150, none⟩],
      row.annual_target = row.monthly_target * 12) ∧
    monthlyTargetFor [⟨some 1, 150, some ("Amel")⟩, ⟨some 1, 150, none⟩] 1 =
      some 150 :=
  ⟨(C5_annual_target [⟨1, "Alpha", 5⟩] [⟨5, some ("Oran"), some ("west")⟩]
      [⟨some 1, 150, some ("Amel")⟩, ⟨some 1, 150, none⟩]).1,
    (C5_annual_target [⟨1, "Alpha", 5⟩] [⟨5, some ("Oran"), some ("west")⟩]
      [⟨some 1, 150, some ("Amel")⟩, ⟨some 1, 150, none⟩]).2 1 150
      (by decide) (by decide)⟩

/-!
## Claim C7 — zero-review products
-/

/-- C7: a product id `p` with no reviews is absent from the sentiment
aggregator's output, and (when no other raw id cleans to the same integer
key) its Product-dimension row carries `avg_sentiment = 0`,
`avg_rating = 0` and `review_count = 0` rather than nulls. -/
theorem C7_zero_review_defaults (g : String → ℚ) (reviews : List ReviewRow)
    (f : String → String → ℕ) (products : List TDProduct)
    (subcats : List TDSubcat) (cats : List TDCategory)
    (comp? : Option (List CompRow)) (p : String)
    (hnorev : ∀ r ∈ reviews, r.product_id ≠ p)
    (hnocoll : ∀ q ∈ products,
      cleanId q.product_id = cleanId p → q.product_id = p) :
    p ∉ (analyzeSentiment g reviews).map SentimentRow.product_id ∧
    ∀ row ∈ createDimProduct f (analyzeSentiment g reviews) products subcats
        cats comp?,
      row.product_id = cleanId p →
      row.avg_sentiment = 0 ∧ row.avg_rating = 0 ∧ row.review_count = 0 := by
  have habs : p ∉ (analyzeSentiment g reviews).map SentimentRow.product_id := by
    intro hmem
    rcases mem_reviews_of_mem_sentimentKeys
      (mem_sentimentKeys_of_mem_output hmem) with ⟨r, hr, hrp⟩
    exact hnorev r hr hrp
  refine ⟨habs, ?_⟩
  intro row hrow hid
  rcases List.mem_map.mp ((dropDupBy_sublist _ _).subset hrow) with ⟨r, hrm, rfl⟩
  have hid' : cleanId r.p.product_id = cleanId p := hid
  have hqp : r.p.product_id = p :=
    hnocoll r.p (mem_products_of_mem_productMerge hrm) hid'
  have hfind : (analyzeSentiment g reviews).find?
      (fun s => decide (s.product_id = r.p.product_id)) = none := by
    apply List.find?_eq_none.mpr
    intro s hs hdec
    apply habs
    apply List.mem_map.mpr
    refine ⟨s, hs, ?_⟩
    have : s.product_id = r.p.product_id := of_decide_eq_true hdec
    rw [this, hqp]
  refine ⟨?_, ?_, ?_⟩
  · show round2 ((((analyzeSentiment g reviews).find?
      (fun s => decide (s.product_id = r.p.product_id))).map
        SentimentRow.avg_sentiment).getD 0) = 0
    rw [hfind]
    exact round2_zero
  · show round2 ((((analyzeSentiment g reviews).find?
      (fun s => decide (s.product_id = r.p.product_id))).bind
        SentimentRow.avg_rating).getD 0) = 0
    rw [hfind]
    exact round2_zero
  · show (((analyzeSentiment g reviews).find?
      (fun s => decide (s.product_id = r.p.product_id))).map
        SentimentRow.review_count).getD 0 = 0
    rw [hfind]
    rfl

/-- Witness for C7: product `"P1"` has no review in a catalog whose only
review is for `"P2"`. -/
theorem C7_witness :
    ("P1" : String) ∉
      (analyzeSentiment (fun _ => 1 / 2)
        [⟨"P2", some ("great"), some 5⟩]).map SentimentRow.product_id ∧
    ∀ row ∈ createDimProduct (fun _ _ => 0)
        (analyzeSentiment (fun _ => 1 / 2) [⟨"P2", some ("great"), some 5⟩])
        [⟨"P1", some ("Widget"), some 10, some 100, some 50⟩] [] [] none,
      row.product_id = cleanId ("P1") →
      row.avg_sentiment = 0 ∧ row.avg_rating = 0 ∧ row.review_count = 0 :=
  C7_zero_review_defaults (fun _ => 1 / 2)
    [⟨"P2", some ("great"), some 5⟩] (fun _ _ => 0)
    [⟨"P1", some ("Widget"), some 10, some 100, some 50⟩] [] [] none
    ("P1") (by decide) (by decide)

end TechStore
